import Mathlib

set_option maxRecDepth 4096

/-!
Verification of the authentication and at-rest encryption core of the
ECB Financial Data Dashboard.

The development shallowly embeds the Python modules
`src/auth/crypto_service.py`, `src/auth/auth_service.py` and
`src/utils/pin_hasher.py`.  File-system state is explicit (a record of the
three optional store files), time is an explicit `Nat` parameter (seconds),
and the external cryptographic primitives (PBKDF2-HMAC, base64url, Fernet,
bcrypt, the SQLite parser) are modelled as ideal injective constructions,
since their implementations live outside this repository.
-/

namespace ECBDash

/-- Byte strings, as lists of byte values. -/
abbrev Bytes := List Nat

/-- UTF-8 encoding of a single character (standard code-point layout). -/
def utf8EncodeChar (c : Char) : Bytes :=
  let n := c.toNat
  if n < 0x80 then [n]
  else if n < 0x800 then [0xC0 + n / 64, 0x80 + n % 64]
  else if n < 0x10000 then [0xE0 + n / 4096, 0x80 + (n / 64) % 64, 0x80 + n % 64]
  else [0xF0 + n / 262144, 0x80 + (n / 4096) % 64, 0x80 + (n / 64) % 64, 0x80 + n % 64]

def utf8EncodeList : List Char → Bytes
  | [] => []
  | c :: cs => utf8EncodeChar c ++ utf8EncodeList cs

/-- Model of Python `s.encode('utf-8')`. -/
def utf8Encode (s : String) : Bytes := utf8EncodeList s.data

/-- The underlying hash algorithm handed to the KDF (`hashes.SHA256()`). -/
inductive HashAlg where
  | SHA256
deriving DecidableEq, Repr

/-- The `PBKDF2HMAC(algorithm, length, salt, iterations)` object of the
    `cryptography` library, recorded by its construction parameters. -/
structure PBKDF2HMAC where
  algorithm : HashAlg
  length : Nat
  salt : Bytes
  iterations : Nat
deriving DecidableEq, Repr

/-- Raw bytes produced by `kdf.derive(password)`.  The primitive is external
    to the repository, so its output is modelled by the tuple of inputs that
    determine it: the KDF is deterministic, and distinct inputs are modelled
    as producing distinct outputs (the ideal-KDF reading of the spec's
    "different PIN yields a different key with overwhelming probability"). -/
structure KDFDerived where
  kdf : PBKDF2HMAC
  password : Bytes
deriving DecidableEq, Repr

def PBKDF2HMAC.derive (kdf : PBKDF2HMAC) (password : Bytes) : KDFDerived :=
  ⟨kdf, password⟩

/-- Output of Python `base64.urlsafe_b64encode` on KDF bytes; base64 is an
    injective external encoder, modelled by its input. -/
structure EncKey where
  raw : KDFDerived
deriving DecidableEq, Repr

def urlsafe_b64encode (d : KDFDerived) : EncKey := ⟨d⟩

/-- Contents of a store file on disk.
    `raw bs sqliteOk` is a plain byte string; since the SQLite parser is
    external, whether the bytes parse as a SQLite database is recorded as the
    attribute `sqliteOk`.  `token` is a Fernet authenticated-encryption token
    (never valid SQLite: a Fernet token is base64 text, not a SQLite header).
    `corrupt` is a half-written file abandoned by a failed write. -/
inductive FileData where
  | raw (bs : Bytes) (sqliteOk : Bool)
  | token (key : EncKey) (payload : FileData)
  | corrupt
deriving DecidableEq, Repr

namespace Fernet

/-- Model of `Fernet(key).encrypt`: an authenticated token binding the key
    and the plaintext. -/
def encrypt (key : EncKey) (data : FileData) : FileData := .token key data

/-- Model of `Fernet(key).decrypt`: succeeds exactly on a token produced
    under the same key; on any other input the MAC check fails and the
    library raises (`none` here).  This is the spec's "tampering or
    wrong-key decryption is detectable rather than silently producing
    garbage". -/
def decrypt (key : EncKey) (data : FileData) : Option FileData :=
  match data with
  | .token k payload => if k = key then some payload else none
  | _ => none

end Fernet

/-- The three store files owned by `DatabaseCryptoService`:
    `database` is `database_path` (the plaintext SQLite file),
    `encrypted` is `encrypted_db_path` (`.db.encrypted`),
    `backup` is `backup_db_path` (`.db.backup`).
    `none` means the file does not exist. -/
structure FS where
  database : Option FileData
  encrypted : Option FileData
  backup : Option FileData
deriving DecidableEq, Repr

/-- The spec's §3 file-presence store states. -/
inductive StoreState where
  | noStore
  | locked
  | unlocked
  | bothPresent
deriving DecidableEq, Repr

def FS.storeState (fs : FS) : StoreState :=
  match fs.encrypted, fs.database with
  | some _, none => .locked
  | none, some _ => .unlocked
  | none, none => .noStore
  | some _, some _ => .bothPresent

namespace DatabaseCryptoService

/-- The fixed application-wide salt `b'ecb_financial_visualizer_salt_2024'`. -/
def salt : Bytes := utf8Encode "ecb_financial_visualizer_salt_2024"

/-- `DatabaseCryptoService.is_database_encrypted`, deciding lock state from
    file presence. -/
def is_database_encrypted (fs : FS) : Bool :=
  let encrypted_exists := fs.encrypted.isSome
  let original_exists := fs.database.isSome
  if encrypted_exists && !original_exists then true
  else if original_exists && !encrypted_exists then false
  else if !encrypted_exists && !original_exists then false
  else true

/-- `DatabaseCryptoService._derive_key_from_pin`: PBKDF2-HMAC over the
    PIN's UTF-8 bytes with SHA-256, 32-byte output, the fixed salt and
    100000 iterations, base64url-encoded. -/
def _derive_key_from_pin (pin : String) : EncKey :=
  let pin_bytes := utf8Encode pin
  let kdf : PBKDF2HMAC :=
    { algorithm := .SHA256, length := 32, salt := salt, iterations := 100000 }
  urlsafe_b64encode (kdf.derive pin_bytes)

/-- `DatabaseCryptoService._create_backup`: copy the plaintext file to the
    backup path when it exists.  `ok = false` injects an I/O failure (the
    method catches its own exception and returns `False` with the state
    unchanged). -/
def _create_backup (ok : Bool) (fs : FS) : Bool × FS :=
  if ok then
    match fs.database with
    | some d => (true, { fs with backup := some d })
    | none => (true, fs)
  else (false, fs)

/-- `DatabaseCryptoService._restore_backup`: copy the backup over the
    plaintext path when the backup exists. -/
def _restore_backup (fs : FS) : Bool × FS :=
  match fs.backup with
  | some b => (true, { fs with database := some b })
  | none => (false, fs)

/-- `DatabaseCryptoService._verify_sqlite_database`: the decrypted file must
    parse as SQLite (the code accepts a table-less database, so the check is
    exactly "parses as SQLite", the `sqliteOk` attribute of raw bytes). -/
def _verify_sqlite_database (fs : FS) : Bool :=
  match fs.database with
  | some (.raw _ ok) => ok
  | _ => false

/-- `DatabaseCryptoService.cleanup_backup`: remove the backup file. -/
def cleanup_backup (fs : FS) : Bool × FS :=
  match fs.backup with
  | some _ => (true, { fs with backup := none })
  | none => (true, fs)

/-- I/O fault injection for one run of `encrypt_database`: whether the
    backup copy, the plaintext read, the ciphertext write and the plaintext
    removal each succeed.  A `false` models the corresponding Python
    statement raising an exception. -/
structure EncFaults where
  backupOk : Bool
  readOk : Bool
  writeOk : Bool
  removeOk : Bool
deriving DecidableEq, Repr

/-- `DatabaseCryptoService.encrypt_database` with explicit I/O faults.
    A failed write leaves a half-written (`corrupt`) encrypted file, as
    `open(path, 'wb')` creates the file before `write` raises.  The
    `except` handler calls `_restore_backup` and returns failure; it never
    removes an already (half-)written encrypted file. -/
def encrypt_database_run (f : EncFaults) (pin : String) (fs : FS) :
    (Bool × String) × FS :=
  match fs.database with
  | none => ((true, ""), fs)
  | some plaintext_data =>
    if is_database_encrypted fs then ((true, ""), fs)
    else
      match _create_backup f.backupOk fs with
      | (false, fs1) => ((false, "Failed to create database backup"), fs1)
      | (true, fs1) =>
        let key := _derive_key_from_pin pin
        if !f.readOk then
          ((false, "Encryption failed: read error"), (_restore_backup fs1).2)
        else
          let encrypted_data := Fernet.encrypt key plaintext_data
          if !f.writeOk then
            let fs2 := { fs1 with encrypted := some .corrupt }
            ((false, "Encryption failed: write error"), (_restore_backup fs2).2)
          else
            let fs2 := { fs1 with encrypted := some encrypted_data }
            if !f.removeOk then
              ((false, "Encryption failed: remove error"), (_restore_backup fs2).2)
            else
              ((true, ""), { fs2 with database := none })

/-- `encrypt_database` on a run without I/O failures. -/
def encrypt_database (pin : String) (fs : FS) : (Bool × String) × FS :=
  encrypt_database_run ⟨true, true, true, true⟩ pin fs

/-- `DatabaseCryptoService.decrypt_database`.  I/O faults are not injected
    here: the claims about decryption concern the wrong-key and
    not-encrypted paths, which the Fernet model and the state carry. -/
def decrypt_database (pin : String) (fs : FS) : (Bool × String) × FS :=
  if !is_database_encrypted fs then ((true, ""), fs)
  else
    match fs.encrypted with
    | none => ((false, "Encrypted database file not found"), fs)
    | some encrypted_data =>
      let key := _derive_key_from_pin pin
      match Fernet.decrypt key encrypted_data with
      | none => ((false, "Invalid PIN - cannot decrypt database"), fs)
      | some decrypted_data =>
        let fs1 := { fs with database := some decrypted_data }
        if !_verify_sqlite_database fs1 then
          ((false, "Decrypted file is not a valid database"),
            { fs1 with database := none })
        else ((true, ""), fs1)

/-- `DatabaseCryptoService.lock_database`: remove the plaintext file. -/
def lock_database (fs : FS) : (Bool × String) × FS :=
  match fs.database with
  | some _ => ((true, ""), { fs with database := none })
  | none => ((true, ""), fs)

end DatabaseCryptoService

namespace PINHasher

/-- `PINHasher.verify_pin`.  `bcrypt.checkpw` is an external primitive that
    may raise on a malformed or non-bcrypt hash; it is passed in as an
    oracle returning `Except` (`.error` models the raised exception).  The
    wrapper catches every exception and returns `false`; it touches no
    state. -/
def verify_pin (checkpw : Bytes → Bytes → Except String Bool)
    (pin hashed_pin : String) : Bool :=
  let pin_bytes := utf8Encode pin
  let hashed_bytes := utf8Encode hashed_pin
  match checkpw pin_bytes hashed_bytes with
  | .ok b => b
  | .error _ => false

end PINHasher

/-- One entry of `AuthService.failed_attempts` (per client identifier).
    Timestamps are seconds. -/
structure AttemptRecord where
  count : Nat
  first_attempt : Nat
  last_attempt : Nat
  locked_until : Option Nat
deriving DecidableEq, Repr

/-- The `failed_attempts` dictionary, keyed by client IP. -/
abbrev AttemptsMap := String → Option AttemptRecord

/-- One entry of `AuthService.active_sessions`. -/
structure SessionData where
  created_at : Nat
  last_activity : Nat
  client_ip : String
  authenticated : Bool
deriving DecidableEq, Repr

/-- The `active_sessions` dictionary, keyed by session token. -/
abbrev SessionsMap := String → Option SessionData

namespace AuthService

/-- `SECURITY_CONFIG["max_login_attempts"]`. -/
def max_login_attempts : Nat := 5

/-- `SECURITY_CONFIG["lockout_duration_minutes"]`, in seconds. -/
def lockout_duration : Nat := 15 * 60

/-- `SECURITY_CONFIG["session_timeout_minutes"]`, in seconds. -/
def session_timeout : Nat := 30 * 60

/-- `SECURITY_CONFIG["pin_hash"]` (bcrypt hash of the configured PIN). -/
def pin_hash : String :=
  "$2b$12$yoH9SuJWxxfnV8oLpWj/tueHNOvbqqvpetJrZS99JRbu2rrO28cee"

/-- `AuthService._is_client_locked_out` at time `now`: true iff a record
    with a non-expired `locked_until` exists; an expired record is deleted
    on the way (a side-effecting read, so the updated map is returned). -/
def _is_client_locked_out (now : Nat) (client_ip : String) (m : AttemptsMap) :
    Bool × AttemptsMap :=
  match m client_ip with
  | none => (false, m)
  | some r =>
    match r.locked_until with
    | some lu =>
      if now > lu then
        (false, fun k => if k = client_ip then none else m k)
      else (true, m)
    | none => (false, m)

/-- `AuthService._get_lockout_remaining_time` at time `now`, in minutes
    (`max(0, ...)` is Nat subtraction, `int(...)` is Nat division). -/
def _get_lockout_remaining_time (now : Nat) (client_ip : String)
    (m : AttemptsMap) : Nat :=
  match m client_ip with
  | some r =>
    match r.locked_until with
    | some lu => (lu - now) / 60
    | none => 0
  | none => 0

/-- `AuthService._record_failed_attempt` at time `now`: create or increment
    the record; once `count` reaches `max_login_attempts`, set
    `locked_until = now + lockout_duration`. -/
def _record_failed_attempt (now : Nat) (client_ip : String) (m : AttemptsMap) :
    AttemptsMap :=
  let r0 : AttemptRecord :=
    match m client_ip with
    | none => { count := 0, first_attempt := now, last_attempt := now,
                locked_until := none }
    | some r => r
  let r1 := { r0 with count := r0.count + 1, last_attempt := now }
  let r2 :=
    if r1.count ≥ max_login_attempts then
      { r1 with locked_until := some (now + lockout_duration) }
    else r1
  fun k => if k = client_ip then some r2 else m k

/-- `AuthService._clear_failed_attempts`: delete the client's record. -/
def _clear_failed_attempts (client_ip : String) (m : AttemptsMap) :
    AttemptsMap :=
  fun k => if k = client_ip then none else m k

/-- Python's PIN-format test `not pin or len(pin) != 6 or not pin.isdigit()`
    (digits are ASCII decimal digits here). -/
def pinFormatBad (pin : String) : Bool :=
  pin = "" || pin.length ≠ 6 || !pin.data.all Char.isDigit

/-- `AuthService.validate_pin` at time `now`.  `verify` is
    `PINHasher.verify_pin` applied to the candidate and the configured
    hash (bcrypt is external, so the comparison outcome is an oracle). -/
def validate_pin (verify : String → String → Bool) (now : Nat)
    (pin : String) (client_ip : String) (m : AttemptsMap) :
    (Bool × String) × AttemptsMap :=
  match _is_client_locked_out now client_ip m with
  | (true, m1) =>
    let remaining_time := _get_lockout_remaining_time now client_ip m1
    ((false, s!"Too many failed attempts. Try again in {remaining_time} minutes."), m1)
  | (false, m1) =>
    if pinFormatBad pin then
      ((false, "PIN must be exactly 6 digits"),
        _record_failed_attempt now client_ip m1)
    else if verify pin pin_hash then
      ((true, ""), _clear_failed_attempts client_ip m1)
    else
      let m2 := _record_failed_attempt now client_ip m1
      let attempts_left :=
        max_login_attempts - (match m2 client_ip with
          | some r => r.count
          | none => 0)
      ((false, s!"Invalid PIN. {attempts_left} attempts remaining."), m2)

/-- `AuthService.create_session` at time `now`.  The token comes from
    `secrets.token_urlsafe(32)`; the generated value is a parameter. -/
def create_session (now : Nat) (session_token : String) (client_ip : String)
    (m : SessionsMap) : SessionsMap :=
  fun k =>
    if k = session_token then
      some { created_at := now, last_activity := now,
             client_ip := client_ip, authenticated := true }
    else m k

/-- `AuthService._destroy_session`. -/
def _destroy_session (session_token : String) (m : SessionsMap) :
    Bool × SessionsMap :=
  match m session_token with
  | some _ => (true, fun k => if k = session_token then none else m k)
  | none => (false, m)

/-- `AuthService.is_session_valid` at time `now`: unknown or empty token is
    invalid; a token idle strictly longer than `session_timeout` is
    destroyed; otherwise `last_activity` is refreshed to `now` (a
    side-effecting read). -/
def is_session_valid (now : Nat) (session_token : String) (m : SessionsMap) :
    Bool × SessionsMap :=
  if session_token = "" then (false, m)
  else
    match m session_token with
    | none => (false, m)
    | some session_data =>
      if now - session_data.last_activity > session_timeout then
        (false, (_destroy_session session_token m).2)
      else
        (true, fun k =>
          if k = session_token then
            some { session_data with last_activity := now }
          else m k)

/-- Successive validity polls: check each time in order, stopping at the
    first failure. -/
def poll (session_token : String) : List Nat → SessionsMap → Bool × SessionsMap
  | [], m => (true, m)
  | u :: us, m =>
    match is_session_valid u session_token m with
    | (true, m1) => poll session_token us m1
    | (false, m1) => (false, m1)

/-- Each listed time is within `bound` of its predecessor (`prev` seeds the
    chain). -/
def gapsWithin (bound : Nat) : Nat → List Nat → Bool
  | _, [] => true
  | prev, u :: us => decide (u - prev ≤ bound) && gapsWithin bound u us

end AuthService

/-- The spec's Key Derivation contract, written from its words: a
    PBKDF2-class KDF with SHA-256 as the underlying hash, the fixed
    application-wide salt, a work factor of 100,000 iterations and 32 raw
    output bytes, base64url-encoded; a function of the PIN alone. -/
def deriveKey_spec (pin : String) : EncKey :=
  urlsafe_b64encode
    (PBKDF2HMAC.derive
      { algorithm := .SHA256, length := 32,
        salt := DatabaseCryptoService.salt, iterations := 100000 }
      (utf8Encode pin))

/-- The `count` of an optional lockout record (0 when absent). -/
def countOf : Option AttemptRecord → Nat
  | some r => r.count
  | none => 0

/-- The `locked_until` of an optional lockout record (`none` when absent). -/
def lockedUntilOf : Option AttemptRecord → Option Nat
  | some r => r.locked_until
  | none => none

/-- A sequence of `_record_failed_attempt` calls for one client at the
    given times. -/
def record_failures (client_ip : String) (ts : List Nat) (m : AttemptsMap) :
    AttemptsMap :=
  ts.foldl (fun acc t => AuthService._record_failed_attempt t client_ip acc) m

/-! ### Injectivity of the UTF-8 encoding

`pin.encode('utf-8')` is injective, so in the ideal-KDF model distinct PINs
derive distinct keys.  This is proved through a one-character decoder that
inverts `utf8EncodeChar` on the front of any byte string. -/

/-- Decode the first UTF-8-encoded code point of a byte string. -/
def utf8DecodeFirst : Bytes → Option (Nat × Bytes)
  | [] => none
  | b0 :: rest =>
    if b0 < 0x80 then some (b0, rest)
    else if b0 < 0xE0 then
      match rest with
      | b1 :: rest1 => some ((b0 - 0xC0) * 64 + (b1 - 0x80), rest1)
      | [] => none
    else if b0 < 0xF0 then
      match rest with
      | b1 :: b2 :: rest1 =>
        some (((b0 - 0xE0) * 64 + (b1 - 0x80)) * 64 + (b2 - 0x80), rest1)
      | _ => none
    else
      match rest with
      | b1 :: b2 :: b3 :: rest1 =>
        some ((((b0 - 0xF0) * 64 + (b1 - 0x80)) * 64 + (b2 - 0x80)) * 64
          + (b3 - 0x80), rest1)
      | _ => none

theorem char_toNat_inj {c d : Char} (h : c.toNat = d.toNat) : c = d :=
  Char.eq_of_val_eq (UInt32.toNat.inj h)

theorem utf8DecodeFirst_encodeChar (c : Char) (r : Bytes) :
    utf8DecodeFirst (utf8EncodeChar c ++ r) = some (c.toNat, r) := by
  unfold utf8EncodeChar
  by_cases h1 : c.toNat < 0x80
  · simp [h1, utf8DecodeFirst]
  · by_cases h2 : c.toNat < 0x800
    · simp only [h1, h2, if_true, if_false, List.cons_append, utf8DecodeFirst]
      have hb : ¬ (0xC0 + c.toNat / 64 < 0x80) := by omega
      have hb2 : 0xC0 + c.toNat / 64 < 0xE0 := by omega
      simp only [hb, hb2, if_true, if_false]
      congr 1
      congr 1
      omega
    · by_cases h3 : c.toNat < 0x10000
      · simp only [h1, h2, h3, if_true, if_false, List.cons_append,
          utf8DecodeFirst]
        have hb : ¬ (0xE0 + c.toNat / 4096 < 0x80) := by omega
        have hb2 : ¬ (0xE0 + c.toNat / 4096 < 0xE0) := by omega
        have hb3 : 0xE0 + c.toNat / 4096 < 0xF0 := by omega
        simp only [hb, hb2, hb3, if_true, if_false]
        congr 1
        congr 1
        omega
      · simp only [h1, h2, h3, if_true, if_false, List.cons_append,
          utf8DecodeFirst]
        have hb : ¬ (0xF0 + c.toNat / 262144 < 0x80) := by omega
        have hb2 : ¬ (0xF0 + c.toNat / 262144 < 0xE0) := by omega
        have hb3 : ¬ (0xF0 + c.toNat / 262144 < 0xF0) := by omega
        simp only [hb, hb2, hb3, if_true, if_false]
        congr 1
        congr 1
        omega

theorem utf8EncodeChar_prefix_inj {c d : Char} {r1 r2 : Bytes}
    (h : utf8EncodeChar c ++ r1 = utf8EncodeChar d ++ r2) :
    c = d ∧ r1 = r2 := by
  have hd := utf8DecodeFirst_encodeChar c r1
  rw [h, utf8DecodeFirst_encodeChar d r2] at hd
  obtain ⟨hn, hr⟩ := Prod.mk.injEq .. ▸ Option.some.inj hd
  exact ⟨(char_toNat_inj hn).symm, hr.symm⟩

theorem utf8EncodeChar_ne_nil (c : Char) : utf8EncodeChar c ≠ [] := by
  simp only [utf8EncodeChar]
  split_ifs <;> simp

theorem utf8EncodeList_inj : ∀ {l1 l2 : List Char},
    utf8EncodeList l1 = utf8EncodeList l2 → l1 = l2 := by
  intro l1
  induction l1 with
  | nil =>
    intro l2 h
    cases l2 with
    | nil => rfl
    | cons d ds =>
      exfalso
      simp only [utf8EncodeList] at h
      exact utf8EncodeChar_ne_nil d (List.append_eq_nil.mp h.symm).1
  | cons c cs ih =>
    intro l2 h
    cases l2 with
    | nil =>
      exfalso
      simp only [utf8EncodeList] at h
      exact utf8EncodeChar_ne_nil c (List.append_eq_nil.mp h).1
    | cons d ds =>
      simp only [utf8EncodeList] at h
      obtain ⟨hc, hr⟩ := utf8EncodeChar_prefix_inj h
      rw [hc, ih hr]

theorem utf8Encode_inj {s t : String} (h : utf8Encode s = utf8Encode t) :
    s = t := by
  cases s; cases t
  exact congrArg String.mk (utf8EncodeList_inj h)

theorem derive_key_inj {p w : String}
    (h : DatabaseCryptoService._derive_key_from_pin p =
      DatabaseCryptoService._derive_key_from_pin w) : p = w := by
  simp only [DatabaseCryptoService._derive_key_from_pin, urlsafe_b64encode,
    PBKDF2HMAC.derive, EncKey.mk.injEq, KDFDerived.mk.injEq] at h
  exact utf8Encode_inj h.2

namespace DatabaseCryptoService

/-- `encrypt_database` from the unlocked state on a fault-free run: backs
    up the plaintext, writes the Fernet token under the PIN-derived key,
    removes the plaintext, succeeds. -/
theorem encrypt_unlocked_eq (C : Bytes) (ok : Bool) (b0 : Option FileData)
    (pin : String) :
    encrypt_database pin ⟨some (.raw C ok), none, b0⟩ =
      ((true, ""),
        ⟨none, some (.token (_derive_key_from_pin pin) (.raw C ok)),
          some (.raw C ok)⟩) := by
  simp [encrypt_database, encrypt_database_run, is_database_encrypted,
    _create_backup, Fernet.encrypt]

end DatabaseCryptoService

namespace AuthService

/-- `_record_failed_attempt` increments the client's failure count by one,
    whether or not a record existed and whether or not the lockout fires. -/
theorem record_count_succ (t : Nat) (ip : String) (m : AttemptsMap) :
    countOf ((_record_failed_attempt t ip m) ip) = countOf (m ip) + 1 := by
  cases hm : m ip <;>
    simp [_record_failed_attempt, hm, countOf] <;>
    split <;> simp [countOf]

/-- Below the threshold, `_record_failed_attempt` does not set
    `locked_until`. -/
theorem record_lockedUntil_of_below (t : Nat) (ip : String) (m : AttemptsMap)
    (hc : countOf (m ip) + 1 < max_login_attempts) :
    lockedUntilOf ((_record_failed_attempt t ip m) ip) =
      lockedUntilOf (m ip) := by
  cases hm : m ip <;>
    simp only [countOf, hm] at hc <;>
    simp [_record_failed_attempt, hm, lockedUntilOf] <;>
    split <;>
    first
      | (exfalso; omega)
      | simp [lockedUntilOf]

/-- Fewer than `max_login_attempts` consecutive recorded failures leave
    `locked_until` unset and the count equal to the number of failures. -/
theorem record_failures_below (ip : String) :
    ∀ (ts : List Nat) (m : AttemptsMap),
      lockedUntilOf (m ip) = none →
      countOf (m ip) + ts.length < max_login_attempts →
      lockedUntilOf ((record_failures ip ts m) ip) = none ∧
      countOf ((record_failures ip ts m) ip) = countOf (m ip) + ts.length := by
  intro ts
  induction ts with
  | nil => intro m hlu _; exact ⟨hlu, rfl⟩
  | cons t ts ih =>
    intro m hlu hc
    simp only [List.length_cons] at hc
    have hc1 : countOf (m ip) + 1 < max_login_attempts := by omega
    have hstep_c := record_count_succ t ip m
    have hstep_lu := record_lockedUntil_of_below t ip m hc1
    have hrec : record_failures ip (t :: ts) m =
        record_failures ip ts (_record_failed_attempt t ip m) := rfl
    rw [hrec]
    have := ih (_record_failed_attempt t ip m)
      (by rw [hstep_lu]; exact hlu) (by rw [hstep_c]; omega)
    refine ⟨this.1, ?_⟩
    rw [this.2, hstep_c]
    simp [List.length_cons]
    omega

/-- A client whose record carries no `locked_until` is not locked out, and
    the check leaves the map unchanged. -/
theorem not_locked_of_lu_none (u : Nat) (ip : String) (m : AttemptsMap)
    (h : lockedUntilOf (m ip) = none) :
    _is_client_locked_out u ip m = (false, m) := by
  cases hm : m ip with
  | none => simp [_is_client_locked_out, hm]
  | some r =>
    simp only [lockedUntilOf, hm] at h
    simp [_is_client_locked_out, hm, h]

/-- A session polled at times each within the sliding timeout of the
    previous activity stays valid through every poll. -/
theorem poll_keeps_valid (tok : String) (htok : tok ≠ "") :
    ∀ (us : List Nat) (m : SessionsMap) (sd : SessionData),
      m tok = some sd →
      gapsWithin session_timeout sd.last_activity us = true →
      (poll tok us m).1 = true := by
  intro us
  induction us with
  | nil => intro m sd _ _; simp [poll]
  | cons u us ih =>
    intro m sd hm hg
    simp only [gapsWithin, Bool.and_eq_true, decide_eq_true_eq] at hg
    obtain ⟨h1, h2⟩ := hg
    have hnot : ¬ (u - sd.last_activity > session_timeout) := by omega
    have hv : is_session_valid u tok m =
        (true, fun k =>
          if k = tok then some { sd with last_activity := u } else m k) := by
      simp [is_session_valid, htok, hm, hnot]
    simp only [poll, hv]
    exact ih _ { sd with last_activity := u } (by simp) h2

end AuthService

namespace Claims

open DatabaseCryptoService

/-- C1: for every plaintext store content `C` (a byte string parsing as
    SQLite) and every PIN `p`, encrypting with `p` from the unlocked state
    succeeds, and decrypting the resulting locked store with `p` succeeds
    and restores a plaintext file whose bytes equal `C` exactly; for every
    wrong PIN `w ≠ p`, decryption fails with the invalid-PIN error and
    leaves the file system unchanged: no plaintext appears on disk and the
    encrypted file is untouched. -/
theorem C1_encrypt_decrypt_roundtrip (C : Bytes) (b0 : Option FileData)
    (p w : String) (hne : w ≠ p) :
    (encrypt_database p ⟨some (.raw C true), none, b0⟩).1 = (true, "") ∧
    decrypt_database p (encrypt_database p ⟨some (.raw C true), none, b0⟩).2 =
      ((true, ""),
        { (encrypt_database p ⟨some (.raw C true), none, b0⟩).2 with
            database := some (.raw C true) }) ∧
    decrypt_database w (encrypt_database p ⟨some (.raw C true), none, b0⟩).2 =
      ((false, "Invalid PIN - cannot decrypt database"),
        (encrypt_database p ⟨some (.raw C true), none, b0⟩).2) ∧
    ((encrypt_database p ⟨some (.raw C true), none, b0⟩).2).database = none := by
  have hkey : _derive_key_from_pin p ≠ _derive_key_from_pin w :=
    fun h => hne (derive_key_inj h).symm
  rw [encrypt_unlocked_eq]
  refine ⟨rfl, ?_, ?_, rfl⟩
  · simp [decrypt_database, is_database_encrypted, Fernet.decrypt,
      _verify_sqlite_database]
  · simp [decrypt_database, is_database_encrypted, Fernet.decrypt,
      _verify_sqlite_database, hkey]

/-- C1 witness: the round trip at `C = [7, 42]`, `p = "112233"`,
    `w = "000000"`. -/
theorem C1_encrypt_decrypt_roundtrip_witness :
    (encrypt_database "112233" ⟨some (.raw [7, 42] true), none, none⟩).1 =
      (true, "") ∧
    decrypt_database "112233"
        (encrypt_database "112233" ⟨some (.raw [7, 42] true), none, none⟩).2 =
      ((true, ""),
        { (encrypt_database "112233"
            ⟨some (.raw [7, 42] true), none, none⟩).2 with
            database := some (.raw [7, 42] true) }) ∧
    decrypt_database "000000"
        (encrypt_database "112233" ⟨some (.raw [7, 42] true), none, none⟩).2 =
      ((false, "Invalid PIN - cannot decrypt database"),
        (encrypt_database "112233"
          ⟨some (.raw [7, 42] true), none, none⟩).2) ∧
    ((encrypt_database "112233"
        ⟨some (.raw [7, 42] true), none, none⟩).2).database = none :=
  C1_encrypt_decrypt_roundtrip [7, 42] none "112233" "000000" (by decide)

/-- C4: `is_database_encrypted` on the four file-presence combinations:
    only the encrypted file → `true`; only the plaintext file → `false`;
    neither → `false`; both → `true` (encrypted form wins). -/
theorem C4_is_database_encrypted_presence_table (x y : FileData)
    (b : Option FileData) :
    is_database_encrypted ⟨none, some x, b⟩ = true ∧
    is_database_encrypted ⟨some y, none, b⟩ = false ∧
    is_database_encrypted ⟨none, none, b⟩ = false ∧
    is_database_encrypted ⟨some y, some x, b⟩ = true :=
  ⟨rfl, rfl, rfl, rfl⟩

/-- C7: `_derive_key_from_pin` is the spec's key-derivation contract — a
    deterministic pure function of the PIN alone, equal to the PBKDF2-HMAC
    model with SHA-256, the fixed application-wide salt, 100,000 iterations
    and 32 raw bytes, base64url-encoded.  Determinism ("two calls with the
    same PIN yield byte-identical keys") is the second conjunct: the result
    is uniquely determined by the PIN. -/
theorem C7_derive_key_matches_contract (pin : String) :
    _derive_key_from_pin pin = ECBDash.deriveKey_spec pin ∧
    ∀ pin2 : String, pin2 = pin →
      _derive_key_from_pin pin2 = _derive_key_from_pin pin := by
  exact ⟨rfl, fun _ h => by rw [h]⟩

/-- C7 witness: the contract equality and determinism at PIN `"112233"`. -/
theorem C7_derive_key_matches_contract_witness :
    _derive_key_from_pin "112233" = ECBDash.deriveKey_spec "112233" ∧
    _derive_key_from_pin "112233" = _derive_key_from_pin "112233" :=
  ⟨(C7_derive_key_matches_contract "112233").1,
    (C7_derive_key_matches_contract "112233").2 "112233" rfl⟩

/-- C2 counterexample: with the plaintext `[0]` on disk and no other store
    files, a run of `encrypt_database` in which only the final
    `os.remove(database_path)` raises returns failure, yet the final state
    has BOTH the (fully written) encrypted file and the plaintext present —
    neither `{locked}` nor the unchanged `{unlocked}` state.  The `except`
    handler restores the backup but never removes the already-written
    encrypted file. -/
theorem C2_encrypt_atomicity_counterexample :
    (encrypt_database_run ⟨true, true, true, false⟩ "112233"
      ⟨some (.raw [0] true), none, none⟩).1.1 = false ∧
    ((encrypt_database_run ⟨true, true, true, false⟩ "112233"
      ⟨some (.raw [0] true), none, none⟩).2).storeState = .bothPresent ∧
    ((encrypt_database_run ⟨true, true, true, false⟩ "112233"
      ⟨some (.raw [0] true), none, none⟩).2).encrypted ≠ none := by
  refine ⟨rfl, rfl, ?_⟩
  decide

/-- C2 amended: from the unlocked state, on success the final state is
    `{locked}` (with the exact ciphertext and backup shown); on any failure
    the plaintext file still holds its original content (restored from the
    backup or never removed); but the final state on failure is only
    guaranteed to be `{unlocked}` OR both-present — a failure at the
    ciphertext-write or plaintext-remove step leaves an encrypted artifact
    on disk next to the restored plaintext. -/
theorem C2_encrypt_rollback_amended (f : EncFaults) (C : Bytes)
    (b0 : Option FileData) (pin : String) :
    ((encrypt_database_run f pin ⟨some (.raw C true), none, b0⟩).1.1 = true →
      (encrypt_database_run f pin ⟨some (.raw C true), none, b0⟩).2 =
        ⟨none, some (.token (_derive_key_from_pin pin) (.raw C true)),
          some (.raw C true)⟩) ∧
    ((encrypt_database_run f pin ⟨some (.raw C true), none, b0⟩).1.1 = false →
      (encrypt_database_run f pin ⟨some (.raw C true), none, b0⟩).2.database =
        some (.raw C true)) ∧
    ((encrypt_database_run f pin ⟨some (.raw C true), none, b0⟩).1.1 = false →
      ((encrypt_database_run f pin ⟨some (.raw C true), none, b0⟩).2).storeState
          = .unlocked ∨
        ((encrypt_database_run f pin
          ⟨some (.raw C true), none, b0⟩).2).storeState = .bothPresent) := by
  obtain ⟨bk, rd, wr, rm⟩ := f
  cases bk <;> cases rd <;> cases wr <;> cases rm <;>
    simp [encrypt_database_run, _create_backup, _restore_backup,
      is_database_encrypted, Fernet.encrypt, FS.storeState]

/-- C2 amended witness: the remove-step failure at `C = [0]`,
    PIN `"112233"`: failure is returned and the plaintext survives. -/
theorem C2_encrypt_rollback_amended_witness :
    (encrypt_database_run ⟨true, true, true, false⟩ "112233"
      ⟨some (.raw [0] true), none, none⟩).2.database = some (.raw [0] true) :=
  (C2_encrypt_rollback_amended ⟨true, true, true, false⟩ [0] none
    "112233").2.1 rfl

/-- C3 counterexample: a completed, successful `encrypt_database` call from
    the unlocked state leaves the backup file present on disk: the success
    path never removes it and never calls `cleanup_backup`. -/
theorem C3_backup_left_counterexample :
    (encrypt_database "112233" ⟨some (.raw [0] true), none, none⟩).1.1 =
      true ∧
    (encrypt_database "112233"
      ⟨some (.raw [0] true), none, none⟩).2.backup = some (.raw [0] true) :=
  ⟨rfl, rfl⟩

/-- C3 amended: the backup made by `encrypt_database` is consumed for
    rollback only on a failing run; on a successful run the backup file is
    left present on disk when the operation returns, and removing it
    requires the separate `cleanup_backup` operation (which always leaves
    no backup file), not called by `encrypt_database`. -/
theorem C3_backup_amended (f : EncFaults) (C : Bytes) (b0 : Option FileData)
    (pin : String) :
    ((encrypt_database_run f pin ⟨some (.raw C true), none, b0⟩).1.1 = true →
      (encrypt_database_run f pin ⟨some (.raw C true), none, b0⟩).2.backup =
        some (.raw C true)) ∧
    (∀ fs : FS, (cleanup_backup fs).2.backup = none) := by
  constructor
  · obtain ⟨bk, rd, wr, rm⟩ := f
    cases bk <;> cases rd <;> cases wr <;> cases rm <;>
      simp [encrypt_database_run, _create_backup, _restore_backup,
        is_database_encrypted, Fernet.encrypt]
  · intro fs
    cases h : fs.backup <;> simp [cleanup_backup, h]

/-- C3 amended witness: the fault-free run at `C = [0]`, PIN `"112233"`
    leaves the backup `[0]` present. -/
theorem C3_backup_amended_witness :
    (encrypt_database_run ⟨true, true, true, true⟩ "112233"
      ⟨some (.raw [0] true), none, none⟩).2.backup = some (.raw [0] true) :=
  (C3_backup_amended ⟨true, true, true, true⟩ [0] none "112233").1 rfl

/-- C9: `PINHasher.verify_pin` never propagates an exception from
    `bcrypt.checkpw`: whenever the underlying check raises (any error, e.g.
    on a malformed or non-bcrypt hash), it returns `false`; when the check
    returns a verdict, it returns that verdict.  The embedding is a total
    pure function, so it throws nothing and has no side effects. -/
theorem C9_verify_pin_total_on_bad_hash
    (checkpw : Bytes → Bytes → Except String Bool) (pin hashed_pin : String) :
    (∀ e, checkpw (utf8Encode pin) (utf8Encode hashed_pin) = .error e →
      PINHasher.verify_pin checkpw pin hashed_pin = false) ∧
    (∀ b, checkpw (utf8Encode pin) (utf8Encode hashed_pin) = .ok b →
      PINHasher.verify_pin checkpw pin hashed_pin = b) := by
  constructor
  · intro e he
    simp [PINHasher.verify_pin, he]
  · intro b hb
    simp [PINHasher.verify_pin, hb]

/-- C9 witness: a checkpw oracle that always raises (malformed stored
    hash); `verify_pin` returns `false`. -/
theorem C9_verify_pin_total_on_bad_hash_witness :
    PINHasher.verify_pin (fun _ _ => .error "Invalid salt") "112233"
      "not-a-bcrypt-hash" = false :=
  (C9_verify_pin_total_on_bad_hash (fun _ _ => .error "Invalid salt")
    "112233" "not-a-bcrypt-hash").1 "Invalid salt" rfl

/-- C10: when the store is not in the locked state (`is_database_encrypted`
    is `false`), `decrypt_database` is a successful no-op for every PIN: it
    returns `(True, "")` and the file system is unchanged (no store file
    created, modified or deleted; the result does not depend on the PIN, so
    no key is derived and no decryption is attempted). -/
theorem C10_decrypt_noop_when_not_encrypted (pin : String) (fs : FS)
    (h : is_database_encrypted fs = false) :
    decrypt_database pin fs = ((true, ""), fs) := by
  simp [decrypt_database, h]

/-- C10 witness: decrypting an unlocked store (plaintext only) is a no-op. -/
theorem C10_decrypt_noop_when_not_encrypted_witness :
    decrypt_database "999999" ⟨some (.raw [1] true), none, none⟩ =
      ((true, ""), ⟨some (.raw [1] true), none, none⟩) :=
  C10_decrypt_noop_when_not_encrypted "999999"
    ⟨some (.raw [1] true), none, none⟩ rfl

/-- C5: for a client with no lockout record, after exactly
    `max_login_attempts` (5) consecutive recorded failures the record shows
    count 5 and `locked_until` 15 minutes past the fifth failure;
    `_is_client_locked_out` then answers `true` (leaving the state
    unchanged, so it stays `true` on every repeated check) for every time
    up to that deadline; strictly after the deadline the check deletes the
    record and answers `false`; with fewer than 5 recorded failures the
    check answers `false`; and `_clear_failed_attempts` (run on successful
    validation) deletes the record, resetting the counter to zero. -/
theorem C5_lockout_threshold (ip : String) (m0 : AttemptsMap)
    (h0 : m0 ip = none) (t1 t2 t3 t4 t5 u : Nat) :
    (record_failures ip [t1, t2, t3, t4, t5] m0) ip =
      some ⟨5, t1, t5, some (t5 + AuthService.lockout_duration)⟩ ∧
    (u ≤ t5 + AuthService.lockout_duration →
      AuthService._is_client_locked_out u ip
          (record_failures ip [t1, t2, t3, t4, t5] m0) =
        (true, record_failures ip [t1, t2, t3, t4, t5] m0)) ∧
    (u > t5 + AuthService.lockout_duration →
      (AuthService._is_client_locked_out u ip
          (record_failures ip [t1, t2, t3, t4, t5] m0)).1 = false ∧
      (AuthService._is_client_locked_out u ip
          (record_failures ip [t1, t2, t3, t4, t5] m0)).2 ip = none) ∧
    (∀ ts : List Nat, ts.length < AuthService.max_login_attempts →
      (AuthService._is_client_locked_out u ip (record_failures ip ts m0)).1 =
        false) ∧
    (∀ ts : List Nat,
      AuthService._clear_failed_attempts ip (record_failures ip ts m0) ip =
        none) := by
  have hm5 : (record_failures ip [t1, t2, t3, t4, t5] m0) ip =
      some ⟨5, t1, t5, some (t5 + AuthService.lockout_duration)⟩ := by
    simp [record_failures, AuthService._record_failed_attempt, h0,
      AuthService.max_login_attempts]
  refine ⟨hm5, ?_, ?_, ?_, ?_⟩
  · intro hu
    have hnot : ¬ (u > t5 + AuthService.lockout_duration) := by omega
    simp [AuthService._is_client_locked_out, hm5, hnot]
  · intro hu
    simp [AuthService._is_client_locked_out, hm5, hu]
  · intro ts hlen
    have hb := AuthService.record_failures_below ip ts m0
      (by simp [lockedUntilOf, h0])
      (by simp [countOf, h0]; omega)
    rw [AuthService.not_locked_of_lu_none u ip _ hb.1]
  · intro ts
    simp [AuthService._clear_failed_attempts]

/-- C5 witness: client `"1.2.3.4"`, empty initial map, failures at
    0, 60, 120, 180, 240 seconds, a check at the lockout deadline. -/
theorem C5_lockout_threshold_witness :
    (record_failures "1.2.3.4" [0, 60, 120, 180, 240] (fun _ => none))
        "1.2.3.4" =
      some ⟨5, 0, 240, some (240 + AuthService.lockout_duration)⟩ ∧
    (1140 ≤ 240 + AuthService.lockout_duration →
      AuthService._is_client_locked_out 1140 "1.2.3.4"
          (record_failures "1.2.3.4" [0, 60, 120, 180, 240] (fun _ => none)) =
        (true,
          record_failures "1.2.3.4" [0, 60, 120, 180, 240] (fun _ => none))) ∧
    (1140 > 240 + AuthService.lockout_duration →
      (AuthService._is_client_locked_out 1140 "1.2.3.4"
          (record_failures "1.2.3.4" [0, 60, 120, 180, 240]
            (fun _ => none))).1 = false ∧
      (AuthService._is_client_locked_out 1140 "1.2.3.4"
          (record_failures "1.2.3.4" [0, 60, 120, 180, 240]
            (fun _ => none))).2 "1.2.3.4" = none) ∧
    (∀ ts : List Nat, ts.length < AuthService.max_login_attempts →
      (AuthService._is_client_locked_out 1140 "1.2.3.4"
          (record_failures "1.2.3.4" ts (fun _ => none))).1 = false) ∧
    (∀ ts : List Nat,
      AuthService._clear_failed_attempts "1.2.3.4"
          (record_failures "1.2.3.4" ts (fun _ => none)) "1.2.3.4" = none) :=
  C5_lockout_threshold "1.2.3.4" (fun _ => none) rfl 0 60 120 180 240 1140

/-- C6: a token placed by `create_session` is valid on an immediate check;
    a check made strictly more than the sliding timeout after creation with
    no intervening checks destroys the record and returns `false`; and a
    token polled at times each within the timeout of the previous activity
    stays valid through every poll (sliding-window, not absolute,
    expiration).  Every successful check refreshes `last_activity`, which
    is what the sliding-poll conjunct exercises. -/
theorem C6_session_sliding_window (tok ip : String) (m : SessionsMap)
    (now u : Nat) (us : List Nat) (htok : tok ≠ "") :
    (AuthService.is_session_valid now tok
        (AuthService.create_session now tok ip m)).1 = true ∧
    (u - now > AuthService.session_timeout →
      (AuthService.is_session_valid u tok
          (AuthService.create_session now tok ip m)).1 = false ∧
      (AuthService.is_session_valid u tok
          (AuthService.create_session now tok ip m)).2 tok = none) ∧
    (AuthService.gapsWithin AuthService.session_timeout now us = true →
      (AuthService.poll tok us (AuthService.create_session now tok ip m)).1 =
        true) := by
  refine ⟨?_, ?_, ?_⟩
  · simp [AuthService.is_session_valid, AuthService.create_session, htok]
  · intro hu
    constructor
    · simp [AuthService.is_session_valid, AuthService.create_session, htok,
        hu]
    · simp [AuthService.is_session_valid, AuthService.create_session, htok,
        hu, AuthService._destroy_session]
  · intro hg
    exact AuthService.poll_keeps_valid tok htok us
      (AuthService.create_session now tok ip m)
      ⟨now, now, ip, true⟩ (by simp [AuthService.create_session]) hg

/-- C6 witness: token `"tok"` created at time 0, an expiry check at
    `session_timeout + 1`, and polls at 1000 and 2000 seconds. -/
theorem C6_session_sliding_window_witness :
    (AuthService.is_session_valid 0 "tok"
        (AuthService.create_session 0 "tok" "1.2.3.4" (fun _ => none))).1 =
      true ∧
    (2000 - 0 > AuthService.session_timeout →
      (AuthService.is_session_valid 2000 "tok"
          (AuthService.create_session 0 "tok" "1.2.3.4"
            (fun _ => none))).1 = false ∧
      (AuthService.is_session_valid 2000 "tok"
          (AuthService.create_session 0 "tok" "1.2.3.4"
            (fun _ => none))).2 "tok" = none) ∧
    (AuthService.gapsWithin AuthService.session_timeout 0 [1000, 2000] =
        true →
      (AuthService.poll "tok" [1000, 2000]
          (AuthService.create_session 0 "tok" "1.2.3.4"
            (fun _ => none))).1 = true) :=
  C6_session_sliding_window "tok" "1.2.3.4" (fun _ => none) 0 2000
    [1000, 2000] (by decide)

/-- C8: a malformed PIN (empty, wrong length or non-digit) from a client
    that is not locked out is rejected with the format-error message and
    recorded as a failed attempt (count incremented by one), and the
    outcome is identical under every verify oracle — the hash comparison is
    never consulted. -/
theorem C8_malformed_pin_rejected (verify : String → String → Bool)
    (now : Nat) (pin ip : String) (m : AttemptsMap)
    (hnl : (AuthService._is_client_locked_out now ip m).1 = false)
    (hbad : AuthService.pinFormatBad pin = true) :
    AuthService.validate_pin verify now pin ip m =
      ((false, "PIN must be exactly 6 digits"),
        AuthService._record_failed_attempt now ip
          (AuthService._is_client_locked_out now ip m).2) ∧
    (∀ verify2 : String → String → Bool,
      AuthService.validate_pin verify2 now pin ip m =
        AuthService.validate_pin verify now pin ip m) ∧
    countOf ((AuthService.validate_pin verify now pin ip m).2 ip) =
      countOf ((AuthService._is_client_locked_out now ip m).2 ip) + 1 := by
  rcases hX : AuthService._is_client_locked_out now ip m with ⟨b, m1⟩
  rw [hX] at hnl
  simp only at hnl
  subst hnl
  have hv : ∀ v : String → String → Bool,
      AuthService.validate_pin v now pin ip m =
        ((false, "PIN must be exactly 6 digits"),
          AuthService._record_failed_attempt now ip m1) := by
    intro v
    simp [AuthService.validate_pin, hX, hbad]
  simp only [hX]
  refine ⟨hv verify, fun v2 => (hv v2).trans (hv verify).symm, ?_⟩
  rw [hv verify]
  exact AuthService.record_count_succ now ip m1

/-- C8 witness: the five-character PIN `"12345"` from client `"ip"` with no
    prior failures, under an oracle that would accept anything. -/
theorem C8_malformed_pin_rejected_witness :
    AuthService.validate_pin (fun _ _ => true) 0 "12345" "ip"
        (fun _ => none) =
      ((false, "PIN must be exactly 6 digits"),
        AuthService._record_failed_attempt 0 "ip"
          (AuthService._is_client_locked_out 0 "ip" (fun _ => none)).2) :=
  (C8_malformed_pin_rejected (fun _ _ => true) 0 "12345" "ip"
    (fun _ => none) rfl (by decide)).1

end Claims

end ECBDash
